import Mathlib

/-!
Shallow embedding of the hackrx-query-system repository:
`document_processor.py` (PDF fetch + fixed-size chunking),
`vector_manager.py` (Pinecone index setup, embed-and-upsert),
`main.py` (FastAPI handler `run_submission` and `get_answer_from_llm`).

External providers (HTTP, OpenAI, Pinecone) are modelled as oracle
functions, and the handler's interactions with them as an event trace.
-/

/-! Constants from `document_processor.py`: chunk_size = 1000, overlap = 200. -/

def chunk_size : Nat := 1000

def overlap : Nat := 200

/-- Offsets `range(0, n, chunk_size - overlap)` from the chunking list
comprehension in `process_pdf_from_url`, starting at `i`. -/
def chunkStarts (i n : Nat) : List Nat :=
  if i < n then i :: chunkStarts (i + (chunk_size - overlap)) n else []
termination_by n - i
decreasing_by simp [chunk_size, overlap]; omega

/-- The chunking step of `process_pdf_from_url`:
`[full_text[i:i+chunk_size] for i in range(0, len(full_text), chunk_size - overlap)]`.
Python's slice `t[i:i+c]` is `(t.drop i).take c`. -/
def chunkText (t : List Char) : List (List Char) :=
  (chunkStarts 0 t.length).map (fun i => (t.drop i).take chunk_size)

/-- Python truthiness of a page's `extract_text()` result: `None` and the
empty string are falsy. -/
def pageTruthy : Option (List Char) → Bool
  | none => false
  | some t => !t.isEmpty

/-- The text concatenation in `process_pdf_from_url`:
`"".join(page.extract_text() for page in reader.pages if page.extract_text())`. -/
def extract_full_text (ps : List (Option (List Char))) : List Char :=
  ((ps.filter pageTruthy).map (fun p => p.getD [])).flatten

/-- Outcome of parsing the downloaded body with `PdfReader`: the reader
either raises (corrupt body) or yields a list of pages, each page's
`extract_text()` returning `None` or a string. -/
inductive PdfParse where
  | corrupt
  | pages (ps : List (Option (List Char)))

/-- Outcome of `requests.get` + `raise_for_status` in `process_pdf_from_url`:
a connection error or timeout (both `RequestException`), an HTTP status for
which `raise_for_status` raises, or a body handed to `PdfReader`. -/
inductive FetchOutcome where
  | connectionError
  | timeout
  | badStatus (code : Nat)
  | ok (parse : PdfParse)

/-- `process_pdf_from_url`: every raised exception is caught and mapped to
`[]`; an empty `reader.pages` returns `[]`; otherwise the extracted text is
chunked. -/
def process_pdf_from_url : FetchOutcome → List (List Char)
  | FetchOutcome.connectionError => []
  | FetchOutcome.timeout => []
  | FetchOutcome.badStatus _ => []
  | FetchOutcome.ok PdfParse.corrupt => []
  | FetchOutcome.ok (PdfParse.pages ps) =>
      if ps.isEmpty then [] else chunkText (extract_full_text ps)

/-- The failing inputs of the fetch-and-chunk operation: network error,
timeout, non-success HTTP status, corrupt body, or a document with zero
pages or zero extractable pages. -/
def fetchFails : FetchOutcome → Prop
  | FetchOutcome.connectionError => True
  | FetchOutcome.timeout => True
  | FetchOutcome.badStatus _ => True
  | FetchOutcome.ok PdfParse.corrupt => True
  | FetchOutcome.ok (PdfParse.pages ps) => ps = [] ∨ ∀ p ∈ ps, pageTruthy p = false

/-- The text "AB" repeated to length 2400 (the end-to-end chunking scenario). -/
def abText : List Char := (List.replicate 1200 ['A', 'B']).flatten

/-! Embedding of `vector_manager.py`. -/

def INDEX_NAME : String := "hackrx-index"

/-- `setup_pinecone`: the external store is modelled by its list of index
names; `create_index` appends the name, and the handle returned by
`pc.Index(INDEX_NAME)` is the name itself. -/
def setup_pinecone (indexes : List String) : List String × String :=
  if INDEX_NAME ∈ indexes then (indexes, INDEX_NAME)
  else (indexes ++ [INDEX_NAME], INDEX_NAME)

/-- One record upserted into the vector index: id, embedding values, and
the chunk text kept as metadata. -/
structure UpsertRecord where
  id : String
  values : List Int
  metadata : String
deriving DecidableEq

/-- State of the external vector store: a record per (namespace, id). -/
def Store : Type := String → String → Option UpsertRecord

/-- Pinecone upsert semantics: insert-or-overwrite each record by id inside
the given namespace; records elsewhere are untouched, none are deleted. -/
def upsert (store : Store) (ns : String) (vectors : List UpsertRecord) : Store :=
  fun n i =>
    if n = ns then
      match vectors.reverse.find? (fun v => v.id = i) with
      | some v => some v
      | none => store n i
    else store n i

/-- The batch built by `embed_and_store`:
`for i, (chunk, embedding_data) in enumerate(zip(chunks, response.data))`
with id `f"vec-{i}"` and the chunk text as metadata. -/
def vectors_to_upsert (embed : List String → List (List Int)) (chunks : List String) :
    List UpsertRecord :=
  (List.enum (chunks.zip (embed chunks))).map
    (fun p => { id := "vec-" ++ toString p.1, values := p.2.2, metadata := p.2.1 })

/-- `embed_and_store`: one batched embedding call on the whole chunk list,
then a single upsert into the fixed namespace `"doc-namespace"`. The second
component records the inputs of the embedding calls made (exactly one). -/
def embed_and_store (embed : List String → List (List Int)) (chunks : List String)
    (store : Store) : Store × List (List String) :=
  (upsert store "doc-namespace" (vectors_to_upsert embed chunks), [chunks])

/-! Embedding of `main.py`. -/

/-- External interactions performed by `run_submission`, in program order. -/
inductive Event where
  | setupIndex
  | fetchDoc (url : String)
  | embedStore
  | queryDb (q : String)
  | completion (q : String)
deriving DecidableEq

/-- Outcome of one request: an `HTTPException` with status code and detail,
an uncaught provider exception, or a JSON answers list. -/
inductive RunResult where
  | httpError (code : Nat) (detail : String)
  | providerError
  | ok (answers : List String)
deriving DecidableEq

/-- `f"Bearer {os.getenv('AUTH_TOKEN')}"`: when the variable is unset,
`os.getenv` yields `None` and the f-string renders it as `"None"`. -/
def expected_token (auth_token : Option String) : String :=
  "Bearer " ++ (match auth_token with | some t => t | none => "None")

/-- `get_answer_from_llm`: the completion call is wrapped in `try/except`;
any failure returns the fixed error string. -/
def get_answer_from_llm (complete : String → String → Except Unit String)
    (context question : String) : String :=
  match complete context question with
  | Except.ok a => a
  | Except.error _ => "Error processing the question."

/-- The question loop of `run_submission`: for each question, synchronously
call `query_vector_db` (whose failure raises out of the handler, aborting
the loop) and collect the (context, question) pair for the answering task;
also records the `queryDb` events issued before any failure. -/
def buildTasks (query_db : String → Except Unit String) :
    List String → Except Unit (List (String × String)) × List Event
  | [] => (Except.ok [], [])
  | q :: qs =>
    match query_db q with
    | Except.error e => (Except.error e, [Event.queryDb q])
    | Except.ok c =>
      match buildTasks query_db qs with
      | (r, tr) => (r.map (fun l => (c, q) :: l), Event.queryDb q :: tr)

/-- The body of `run_submission` after the auth check: setup the index,
fetch and chunk the document, reject with 400 on an empty chunk list,
embed-and-store, build the per-question tasks, and gather the answers in
question order. -/
def run_authenticated (process_pdf : String → List String)
    (embed_store : List String → Except Unit Unit)
    (query_db : String → Except Unit String)
    (complete : String → String → Except Unit String)
    (documents : String) (questions : List String) : RunResult × List Event :=
  if (process_pdf documents).isEmpty then
    (RunResult.httpError 400 "Could not process the document from the URL.",
      [Event.setupIndex, Event.fetchDoc documents])
  else
    match embed_store (process_pdf documents) with
    | Except.error _ =>
      (RunResult.providerError,
        [Event.setupIndex, Event.fetchDoc documents, Event.embedStore])
    | Except.ok _ =>
      match buildTasks query_db questions with
      | (Except.error _, tr) =>
        (RunResult.providerError,
          [Event.setupIndex, Event.fetchDoc documents, Event.embedStore] ++ tr)
      | (Except.ok tasks, tr) =>
        (RunResult.ok (tasks.map (fun t => get_answer_from_llm complete t.1 t.2)),
          [Event.setupIndex, Event.fetchDoc documents, Event.embedStore] ++ tr
            ++ tasks.map (fun t => Event.completion t.2))

/-- `run_submission`: `if authorization != expected_token: raise 403` (a
missing header is `None`, which never equals a string), then the
authenticated pipeline. -/
def run_submission (auth_token authorization : Option String)
    (process_pdf : String → List String)
    (embed_store : List String → Except Unit Unit)
    (query_db : String → Except Unit String)
    (complete : String → String → Except Unit String)
    (documents : String) (questions : List String) : RunResult × List Event :=
  if authorization = some (expected_token auth_token) then
    run_authenticated process_pdf embed_store query_db complete documents questions
  else
    (RunResult.httpError 403 "Forbidden: Invalid authentication token", [])

/-- One step of `asyncio.gather`'s slot semantics: when task `i` finishes it
writes its answer into slot `i` of the result array. -/
def gatherStep (complete : String → String → Except Unit String)
    (tasks : List (String × String)) (acc : List (Option String)) (i : Nat) :
    List (Option String) :=
  match tasks[i]? with
  | some t => acc.set i (some (get_answer_from_llm complete t.1 t.2))
  | none => acc

/-- `asyncio.gather` under an arbitrary completion order: tasks finish in
the order given by `order`, each filling its own slot. -/
def runGatherSlots (complete : String → String → Except Unit String)
    (tasks : List (String × String)) (order : List Nat) : List (Option String) :=
  order.foldl (gatherStep complete tasks) (List.replicate tasks.length none)

/-! Concrete oracle fixtures used to instantiate the orchestration theorems. -/

def oneChunk : String → List String := fun _ => ["chunk"]

def okEmbed : List String → Except Unit Unit := fun _ => Except.ok ()

def okQuery : String → Except Unit String := fun _ => Except.ok "ctx"

def errQuery : String → Except Unit String := fun _ => Except.error ()

def okComplete : String → String → Except Unit String := fun _ _ => Except.ok "ans"

def failQ2Complete : String → String → Except Unit String :=
  fun _ q => if q = "Q2" then Except.error () else Except.ok "ans"

def constEmbed : List String → List (List Int) := fun l => l.map (fun _ => [0])

def emptyStore : Store := fun _ _ => none

/-! Facts about the chunking step. -/

/-- The offsets produced by `range(0, n, 800)` starting at `i` form an
arithmetic progression of length `ceil((n - i) / 800)`. -/
lemma chunkStarts_eq (i n : Nat) :
    chunkStarts i n = (List.range ((n - i + 799) / 800)).map (fun k => i + 800 * k) := by
  rw [chunkStarts]
  by_cases h : i < n
  · rw [if_pos h, chunkStarts_eq (i + (chunk_size - overlap)) n]
    have hs : chunk_size - overlap = 800 := rfl
    rw [hs]
    have hcount : (n - i + 799) / 800 = (n - (i + 800) + 799) / 800 + 1 := by omega
    rw [hcount, List.range_succ_eq_map]
    simp only [List.map_cons, List.map_map, Nat.mul_zero, Nat.add_zero]
    congr 1
    apply List.map_congr_left
    intro k _
    simp only [Function.comp_apply, Nat.succ_eq_add_one]
    omega
  · rw [if_neg h]
    have : (n - i + 799) / 800 = 0 := by omega
    rw [this]
    rfl
termination_by n - i
decreasing_by simp [chunk_size, overlap]; omega

/-- Closed form of the chunking step: chunk `k` is the window of width at
most 1000 starting at offset `800 * k`. -/
lemma chunkText_eq (t : List Char) :
    chunkText t
      = (List.range ((t.length + 799) / 800)).map (fun k => (t.drop (800 * k)).take 1000) := by
  rw [chunkText, chunkStarts_eq]
  simp only [Nat.sub_zero, List.map_map]
  apply List.map_congr_left
  intro k _
  simp [Function.comp, chunk_size]

lemma chunkText_length (t : List Char) :
    (chunkText t).length = (t.length + 799) / 800 := by
  rw [chunkText_eq]
  simp

lemma chunkText_getElem? (t : List Char) (k : Nat) (hk : k < (t.length + 799) / 800) :
    (chunkText t)[k]? = some ((t.drop (800 * k)).take 1000) := by
  rw [chunkText_eq, List.getElem?_map, List.getElem?_range hk]
  rfl

lemma chunkText_getD (t : List Char) (k : Nat) (hk : k < (t.length + 799) / 800) :
    (chunkText t).getD k [] = (t.drop (800 * k)).take 1000 := by
  rw [List.getD_eq_getElem?_getD, chunkText_getElem? t k hk]
  rfl

lemma abText_length : abText.length = 2400 := by
  rw [abText, List.length_flatten, List.map_replicate, List.sum_replicate]
  simp

/-- C3: for a text of length N the chunking step returns `ceil(N/800)`
chunks (hence 0 chunks when N = 0), and chunk k is the window of the text
starting at offset `800 * k`, of length at most 1000. -/
theorem chunk_count_and_windows (t : List Char) :
    (chunkText t).length = (t.length + 800 - 1) / 800
    ∧ (t.length = 0 → chunkText t = [])
    ∧ (∀ k, k < (chunkText t).length →
        (chunkText t)[k]? = some ((t.drop (800 * k)).take 1000))
    ∧ ∀ c ∈ chunkText t, c.length ≤ 1000 := by
  refine ⟨?_, ?_, ?_, ?_⟩
  · rw [chunkText_length]
    omega
  · intro h0
    have hlen := chunkText_length t
    rw [h0] at hlen
    have : (chunkText t).length = 0 := by omega
    exact List.eq_nil_of_length_eq_zero this
  · intro k hk
    rw [chunkText_length] at hk
    exact chunkText_getElem? t k hk
  · intro c hc
    rw [chunkText_eq] at hc
    obtain ⟨k, _, rfl⟩ := List.mem_map.mp hc
    exact List.length_take_le _ _

/-- Witness for C3 at the two-character text `['a', 'b']`. -/
theorem chunk_count_and_windows_witness :
    (chunkText ['a', 'b']).length = ((['a', 'b'] : List Char).length + 800 - 1) / 800
    ∧ (chunkText ['a', 'b'])[0]? = some (((['a', 'b'] : List Char).drop (800 * 0)).take 1000) :=
  ⟨(chunk_count_and_windows ['a', 'b']).1,
   (chunk_count_and_windows ['a', 'b']).2.2.1 0
     (by rw [chunkText_length]; norm_num)⟩

/-- C4: every character position p of the text appears, at offset `p % 800`,
inside the chunk with index `p / 800`; and each pair of consecutive chunks
not involving the last chunk overlaps by exactly 200 characters. -/
theorem chunks_cover_and_overlap (t : List Char) :
    (∀ p, p < t.length →
      p / 800 < (chunkText t).length
      ∧ ((chunkText t).getD (p / 800) [])[p % 800]? = t[p]?)
    ∧ (∀ k, k + 2 < (chunkText t).length →
      ((chunkText t).getD k []).drop 800 = ((chunkText t).getD (k + 1) []).take 200
      ∧ (((chunkText t).getD k []).drop 800).length = 200) := by
  constructor
  · intro p hp
    have hk : p / 800 < (t.length + 799) / 800 := by omega
    refine ⟨by rw [chunkText_length]; exact hk, ?_⟩
    rw [chunkText_getD t _ hk, List.getElem?_take, if_pos (by omega : p % 800 < 1000),
      List.getElem?_drop]
    congr 1
    omega
  · intro k hk2
    rw [chunkText_length] at hk2
    have hN : 800 * k + 1601 ≤ t.length := by omega
    have hk : k < (t.length + 799) / 800 := by omega
    have hk1 : k + 1 < (t.length + 799) / 800 := by omega
    rw [chunkText_getD t k hk, chunkText_getD t (k + 1) hk1]
    constructor
    · rw [List.drop_take, List.drop_drop, List.take_take]
      norm_num
      have h800 : 800 * (k + 1) = 800 * k + 800 := by ring
      rw [h800]
    · rw [List.drop_take, List.drop_drop, List.length_take, List.length_drop]
      omega

/-- Witness for C4 at the 2400-character text, position 1000 and chunk pair (0, 1). -/
theorem chunks_cover_and_overlap_witness :
    (1000 / 800 < (chunkText abText).length
      ∧ ((chunkText abText).getD (1000 / 800) [])[1000 % 800]? = abText[1000]?)
    ∧ (((chunkText abText).getD 0 []).drop 800 = ((chunkText abText).getD 1 []).take 200
      ∧ (((chunkText abText).getD 0 []).drop 800).length = 200) :=
  ⟨(chunks_cover_and_overlap abText).1 1000 (by rw [abText_length]; norm_num),
   (chunks_cover_and_overlap abText).2 0 (by rw [chunkText_length, abText_length]; norm_num)⟩

lemma abText_chunk_lengths : (chunkText abText).map List.length = [1000, 1000, 800] := by
  have h3 : (abText.length + 799) / 800 = 3 := by rw [abText_length]
  rw [chunkText_eq, h3]
  have hr : List.range 3 = [0, 1, 2] := rfl
  rw [hr]
  simp [List.length_take, List.length_drop, abText_length]

/-- C2 counterexample: on the text "AB" repeated to length 2400 the chunk
lengths are 1000, 1000, 800 — the last chunk has length 800, not 400,
because the window at offset 1600 still has 800 of the 2400 characters
available. -/
theorem abText_last_chunk_not_400 :
    (chunkText abText).map List.length ≠ [1000, 1000, 400] := by
  rw [abText_chunk_lengths]
  decide

/-- C2 amended: for the input text "AB" repeated to length 2400, the
chunking step produces exactly 3 chunks, taken at offsets 0, 800 and 1600,
with lengths 1000, 1000 and 800 respectively. -/
theorem abText_chunking :
    (chunkText abText).length = 3
    ∧ (chunkText abText)[0]? = some ((abText.drop 0).take 1000)
    ∧ (chunkText abText)[1]? = some ((abText.drop 800).take 1000)
    ∧ (chunkText abText)[2]? = some ((abText.drop 1600).take 1000)
    ∧ (chunkText abText).map List.length = [1000, 1000, 800] := by
  have h3 : (abText.length + 799) / 800 = 3 := by rw [abText_length]
  refine ⟨?_, ?_, ?_, ?_, abText_chunk_lengths⟩
  · rw [chunkText_length, h3]
  · simpa using chunkText_getElem? abText 0 (by omega)
  · simpa using chunkText_getElem? abText 1 (by omega)
  · simpa using chunkText_getElem? abText 2 (by omega)

lemma chunkText_nil : chunkText [] = [] := by
  rw [chunkText_eq]
  norm_num

/-- C7: on every failing input — network error, timeout, HTTP error status,
corrupt document body, or a document with zero (extractable) pages —
`process_pdf_from_url` returns the empty list instead of raising. -/
theorem process_pdf_fails_to_empty (o : FetchOutcome) (h : fetchFails o) :
    process_pdf_from_url o = [] := by
  cases o with
  | connectionError => rfl
  | timeout => rfl
  | badStatus code => rfl
  | ok parse =>
    cases parse with
    | corrupt => rfl
    | pages ps =>
      rcases h with h0 | hall
      · subst h0
        rfl
      · show (if ps.isEmpty then [] else chunkText (extract_full_text ps)) = []
        by_cases hemp : ps.isEmpty
        · rw [if_pos hemp]
        · rw [if_neg hemp]
          have hfilter : ps.filter pageTruthy = [] := by
            apply List.filter_eq_nil_iff.mpr
            intro a ha
            simp [hall a ha]
          have hext : extract_full_text ps = [] := by
            rw [extract_full_text, hfilter]
            rfl
          rw [hext, chunkText_nil]

/-- Witness for C7 at a timeout of the document download. -/
theorem process_pdf_fails_to_empty_witness :
    fetchFails FetchOutcome.timeout ∧ process_pdf_from_url FetchOutcome.timeout = [] :=
  ⟨True.intro, process_pdf_fails_to_empty FetchOutcome.timeout True.intro⟩

/-- C9: `setup_pinecone` is idempotent — when the named index already
exists it performs no create and returns the handle unchanged, a second
call in succession is a no-op on the store, and from any valid store state
(index names are unique, so the name occurs at most once) two calls leave
exactly one index with that name. -/
theorem setup_pinecone_idempotent (indexes : List String) :
    (INDEX_NAME ∈ indexes → setup_pinecone indexes = (indexes, INDEX_NAME))
    ∧ setup_pinecone (setup_pinecone indexes).1 = ((setup_pinecone indexes).1, INDEX_NAME)
    ∧ (List.count INDEX_NAME indexes ≤ 1 →
        List.count INDEX_NAME (setup_pinecone (setup_pinecone indexes).1).1 = 1) := by
  by_cases hmem : INDEX_NAME ∈ indexes
  · refine ⟨fun _ => by rw [setup_pinecone, if_pos hmem], ?_, ?_⟩
    · simp [setup_pinecone, hmem]
    · intro hle
      have hpos : 0 < List.count INDEX_NAME indexes := List.count_pos_iff.mpr hmem
      simp [setup_pinecone, hmem]
      omega
  · refine ⟨fun h => absurd h hmem, ?_, ?_⟩
    · have hmem2 : INDEX_NAME ∈ indexes ++ [INDEX_NAME] := by simp
      simp [setup_pinecone, hmem, hmem2]
    · intro _
      have hzero : List.count INDEX_NAME indexes = 0 := by
        exact List.count_eq_zero.mpr hmem
      have hmem2 : INDEX_NAME ∈ indexes ++ [INDEX_NAME] := by simp
      simp [setup_pinecone, hmem, hmem2, List.count_append, hzero]

/-- Witness for C9: an existing index is left alone, and two calls from the
empty store leave exactly one index named `INDEX_NAME`. -/
theorem setup_pinecone_idempotent_witness :
    setup_pinecone [INDEX_NAME] = ([INDEX_NAME], INDEX_NAME)
    ∧ List.count INDEX_NAME (setup_pinecone (setup_pinecone []).1).1 = 1 :=
  ⟨(setup_pinecone_idempotent [INDEX_NAME]).1 (by simp),
   (setup_pinecone_idempotent []).2.2 (by simp)⟩

/-! Facts about the question loop and the gather step of `run_submission`. -/

/-- When the question loop completes without a retrieval failure, it yields
one (context, question) task per question, in question order. -/
lemma buildTasks_ok (query_db : String → Except Unit String) :
    ∀ (qs : List String) (tasks : List (String × String)) (tr : List Event),
      buildTasks query_db qs = (Except.ok tasks, tr) →
      tasks.length = qs.length
      ∧ ∀ (i : Nat) (q : String), qs[i]? = some q →
          ∃ ctx : String, query_db q = Except.ok ctx ∧ tasks[i]? = some (ctx, q) := by
  intro qs
  induction qs with
  | nil =>
    intro tasks tr h
    simp only [buildTasks, Prod.mk.injEq, Except.ok.injEq] at h
    obtain ⟨h1, _⟩ := h
    subst h1
    refine ⟨rfl, ?_⟩
    intro i q hq
    simp at hq
  | cons q qs ih =>
    intro tasks tr h
    simp only [buildTasks] at h
    cases hq : query_db q with
    | error e =>
      rw [hq] at h
      simp at h
    | ok c =>
      rw [hq] at h
      rcases hbt : buildTasks query_db qs with ⟨r, tr0⟩
      rw [hbt] at h
      cases r with
      | error e =>
        simp [Except.map] at h
      | ok l =>
        simp only [Except.map, Prod.mk.injEq, Except.ok.injEq] at h
        obtain ⟨h1, _⟩ := h
        subst h1
        obtain ⟨hlen, hidx⟩ := ih l tr0 hbt
        refine ⟨by simp [hlen], ?_⟩
        intro i x hx
        cases i with
        | zero =>
          rw [List.getElem?_cons_zero] at hx
          cases hx
          exact ⟨c, hq, by rw [List.getElem?_cons_zero]⟩
        | succ n =>
          rw [List.getElem?_cons_succ] at hx
          obtain ⟨ctx, hctx, htask⟩ := hidx n x hx
          exact ⟨ctx, hctx, by rw [List.getElem?_cons_succ]; exact htask⟩

/-- When every retrieval succeeds, the question loop succeeds and issues one
`queryDb` event per question. -/
lemma buildTasks_all_ok (query_db : String → Except Unit String) :
    ∀ qs : List String, (∀ q ∈ qs, ∃ ctx, query_db q = Except.ok ctx) →
      ∃ tasks, buildTasks query_db qs = (Except.ok tasks, qs.map Event.queryDb) := by
  intro qs
  induction qs with
  | nil => exact fun _ => ⟨[], rfl⟩
  | cons q qs ih =>
    intro hall
    obtain ⟨c, hc⟩ := hall q (by simp)
    obtain ⟨tasks, htasks⟩ := ih (fun x hx => hall x (by simp [hx]))
    refine ⟨(c, q) :: tasks, ?_⟩
    simp only [buildTasks, hc, htasks, List.map_cons]
    rfl

lemma gatherStep_length (complete : String → String → Except Unit String)
    (tasks : List (String × String)) (acc : List (Option String)) (i : Nat) :
    (gatherStep complete tasks acc i).length = acc.length := by
  rw [gatherStep]
  cases tasks[i]? <;> simp

lemma gatherStep_of_some (complete : String → String → Except Unit String)
    (tasks : List (String × String)) (acc : List (Option String)) (i : Nat)
    (t : String × String) (hti : tasks[i]? = some t) :
    gatherStep complete tasks acc i
      = acc.set i (some (get_answer_from_llm complete t.1 t.2)) := by
  rw [gatherStep, hti]

lemma gatherStep_of_none (complete : String → String → Except Unit String)
    (tasks : List (String × String)) (acc : List (Option String)) (i : Nat)
    (hti : tasks[i]? = none) :
    gatherStep complete tasks acc i = acc := by
  rw [gatherStep, hti]

/-- A slot whose index is not a task index is never written by the gather. -/
lemma foldl_gatherStep_of_none (complete : String → String → Except Unit String)
    (tasks : List (String × String)) :
    ∀ (order : List Nat) (acc : List (Option String)) (j : Nat), tasks[j]? = none →
      (order.foldl (gatherStep complete tasks) acc)[j]? = acc[j]? := by
  intro order
  induction order with
  | nil => intro acc j _; rfl
  | cons i rest ih =>
    intro acc j htj
    rw [List.foldl_cons, ih (gatherStep complete tasks acc i) j htj]
    cases hti : tasks[i]? with
    | none => rw [gatherStep_of_none complete tasks acc i hti]
    | some t =>
      rw [gatherStep_of_some complete tasks acc i t hti, List.getElem?_set]
      by_cases hij : i = j
      · subst hij
        rw [hti] at htj
        cases htj
      · rw [if_neg hij]

/-- After the tasks listed in `order` have finished, the slot of task `j`
holds task `j`'s own answer exactly when `j` has finished. -/
lemma foldl_gatherStep_of_some (complete : String → String → Except Unit String)
    (tasks : List (String × String)) :
    ∀ (order : List Nat) (acc : List (Option String)), acc.length = tasks.length →
      ∀ (j : Nat) (t : String × String), tasks[j]? = some t →
        (order.foldl (gatherStep complete tasks) acc)[j]?
          = if j ∈ order then some (some (get_answer_from_llm complete t.1 t.2))
            else acc[j]? := by
  intro order
  induction order with
  | nil =>
    intro acc _ j t _
    rw [List.foldl_nil, if_neg (by simp)]
  | cons i rest ih =>
    intro acc hlen j t htj
    rw [List.foldl_cons,
      ih (gatherStep complete tasks acc i) (by rw [gatherStep_length]; exact hlen) j t htj]
    by_cases hjr : j ∈ rest
    · rw [if_pos hjr, if_pos (by simp [hjr])]
    · rw [if_neg hjr]
      by_cases hij : i = j
      · subst hij
        rw [if_pos (by simp)]
        rw [gatherStep_of_some complete tasks acc i t htj, List.getElem?_set, if_pos rfl]
        obtain ⟨hlt, _⟩ := List.getElem?_eq_some.mp htj
        rw [if_pos (by omega : i < acc.length)]
      · rw [if_neg (by simp [Ne.symm hij, hjr] : ¬ j ∈ i :: rest)]
        cases hti : tasks[i]? with
        | none => rw [gatherStep_of_none complete tasks acc i hti]
        | some t2 =>
          rw [gatherStep_of_some complete tasks acc i t2 hti, List.getElem?_set, if_neg hij]

/-- `asyncio.gather` fills each task's own slot, so the gathered answers are
in task order whatever order the tasks finish in. -/
lemma runGatherSlots_perm (complete : String → String → Except Unit String)
    (tasks : List (String × String)) (order : List Nat)
    (h : List.Perm order (List.range tasks.length)) :
    runGatherSlots complete tasks order
      = tasks.map (fun t => some (get_answer_from_llm complete t.1 t.2)) := by
  apply List.ext_getElem?
  intro j
  have hmem : j ∈ order ↔ j < tasks.length := by
    rw [h.mem_iff, List.mem_range]
  cases ht : tasks[j]? with
  | none =>
    have hj : ¬ j < tasks.length := by
      intro hlt
      rw [List.getElem?_eq_getElem hlt] at ht
      cases ht
    rw [runGatherSlots, foldl_gatherStep_of_none complete tasks order _ j ht]
    simp [List.getElem?_replicate, List.getElem?_map, hj, ht]
  | some t =>
    obtain ⟨hlt, _⟩ := List.getElem?_eq_some.mp ht
    rw [runGatherSlots, foldl_gatherStep_of_some complete tasks order _ (by simp) j t ht,
      if_pos (hmem.mpr hlt)]
    simp [List.getElem?_map, ht]

/-- C6: a request whose Authorization header is missing or differs from the
configured bearer token string is rejected with a 403 and performs no
external interaction at all — the event trace is empty, so no document
fetch, no index call, no embedding call, no completion call. -/
theorem auth_mismatch_rejected_before_any_call (auth_token authorization : Option String)
    (process_pdf : String → List String) (embed_store : List String → Except Unit Unit)
    (query_db : String → Except Unit String) (complete : String → String → Except Unit String)
    (documents : String) (questions : List String)
    (hauth : authorization ≠ some (expected_token auth_token)) :
    run_submission auth_token authorization process_pdf embed_store query_db complete
        documents questions
      = (RunResult.httpError 403 "Forbidden: Invalid authentication token", []) := by
  rw [run_submission, if_neg hauth]

/-- Witness for C6 at a request with a missing Authorization header. -/
theorem auth_mismatch_rejected_before_any_call_witness :
    run_submission (some "secret") none oneChunk okEmbed okQuery okComplete "url" ["Q1"]
      = (RunResult.httpError 403 "Forbidden: Invalid authentication token", []) :=
  auth_mismatch_rejected_before_any_call (some "secret") none oneChunk okEmbed okQuery
    okComplete "url" ["Q1"] (by simp)

/-- C10: when the AUTH_TOKEN variable is unset the expected header value is
the literal string "Bearer None", and a request carrying exactly that
header is authenticated and runs the full pipeline; with all providers
succeeding it returns an answers list. -/
theorem unset_auth_token_accepts_bearer_none (process_pdf : String → List String)
    (embed_store : List String → Except Unit Unit) (query_db : String → Except Unit String)
    (complete : String → String → Except Unit String)
    (documents : String) (questions : List String) :
    expected_token none = "Bearer None"
    ∧ run_submission none (some "Bearer None") process_pdf embed_store query_db complete
        documents questions
      = run_authenticated process_pdf embed_store query_db complete documents questions
    ∧ (run_submission none (some "Bearer None") oneChunk okEmbed okQuery okComplete
        "url" ["Q1"]).1 = RunResult.ok ["ans"] := by
  refine ⟨rfl, ?_, by decide⟩
  rw [run_submission, if_pos (by decide : some "Bearer None" = some (expected_token none))]

/-- C5: whenever `run_submission` returns an answers list, it has exactly
one answer per question, the answer at index i is the one produced from the
context retrieved for the question at index i, and the slot-based gather
yields those same answers under every task completion order. -/
theorem answers_aligned_with_questions (auth_token authorization : Option String)
    (process_pdf : String → List String) (embed_store : List String → Except Unit Unit)
    (query_db : String → Except Unit String) (complete : String → String → Except Unit String)
    (documents : String) (questions : List String) (answers : List String) (tr : List Event)
    (hrun : run_submission auth_token authorization process_pdf embed_store query_db complete
        documents questions = (RunResult.ok answers, tr)) :
    answers.length = questions.length
    ∧ (∀ (i : Nat) (q : String), questions[i]? = some q →
        ∀ ctx : String, query_db q = Except.ok ctx →
        answers[i]? = some (get_answer_from_llm complete ctx q))
    ∧ ∀ order : List Nat, List.Perm order (List.range questions.length) →
        ∃ tasks : List (String × String),
          (buildTasks query_db questions).1 = Except.ok tasks
          ∧ runGatherSlots complete tasks order = answers.map some := by
  rw [run_submission] at hrun
  split at hrun
  · rw [run_authenticated] at hrun
    split at hrun
    · simp at hrun
    · split at hrun
      · simp at hrun
      · split at hrun
        · simp at hrun
        · rename_i tasks tr0 heq
          simp only [Prod.mk.injEq, RunResult.ok.injEq] at hrun
          obtain ⟨h1, _⟩ := hrun
          subst h1
          obtain ⟨hlen, hidx⟩ := buildTasks_ok query_db questions tasks tr0 heq
          refine ⟨by simp [hlen], ?_, ?_⟩
          · intro i q hq ctx hctx
            obtain ⟨ctx2, hctx2, htask⟩ := hidx i q hq
            rw [hctx] at hctx2
            cases hctx2
            rw [List.getElem?_map, htask]
            rfl
          · intro order hperm
            rw [← hlen] at hperm
            refine ⟨tasks, by rw [heq], ?_⟩
            rw [runGatherSlots_perm complete tasks order hperm, List.map_map]
            rfl
  · simp at hrun

/-- Witness for C5 at a concrete fully successful single-question run. -/
theorem answers_aligned_with_questions_witness :
    (["ans"] : List String).length = (["Q1"] : List String).length
    ∧ (∀ (i : Nat) (q : String), (["Q1"] : List String)[i]? = some q →
        ∀ ctx : String, okQuery q = Except.ok ctx →
        (["ans"] : List String)[i]? = some (get_answer_from_llm okComplete ctx q))
    ∧ ∀ order : List Nat, List.Perm order (List.range (["Q1"] : List String).length) →
        ∃ tasks : List (String × String),
          (buildTasks okQuery ["Q1"]).1 = Except.ok tasks
          ∧ runGatherSlots okComplete tasks order = (["ans"] : List String).map some :=
  answers_aligned_with_questions (some "t") (some "Bearer t") oneChunk okEmbed okQuery
    okComplete "url" ["Q1"] ["ans"]
    [Event.setupIndex, Event.fetchDoc "url", Event.embedStore, Event.queryDb "Q1",
      Event.completion "Q1"]
    (by decide)

/-- C1 counterexample: on a request whose chunking succeeds and whose only
question's provider call fails during retrieval (the embedding call inside
`query_vector_db`, which runs outside the `try/except` of
`get_answer_from_llm`), the request does not return an answers list at all:
the exception propagates and the whole request fails. -/
theorem retrieval_failure_fails_whole_request :
    run_submission (some "t") (some "Bearer t") oneChunk okEmbed errQuery okComplete
        "url" ["Q1"]
      = (RunResult.providerError,
          [Event.setupIndex, Event.fetchDoc "url", Event.embedStore, Event.queryDb "Q1"])
    ∧ ¬ ∃ answers tr,
        run_submission (some "t") (some "Bearer t") oneChunk okEmbed errQuery okComplete
            "url" ["Q1"]
          = (RunResult.ok answers, tr) := by
  have h1 : run_submission (some "t") (some "Bearer t") oneChunk okEmbed errQuery okComplete
      "url" ["Q1"]
      = (RunResult.providerError,
          [Event.setupIndex, Event.fetchDoc "url", Event.embedStore, Event.queryDb "Q1"]) := by
    decide
  refine ⟨h1, ?_⟩
  rintro ⟨answers, tr, h⟩
  rw [h1] at h
  simp at h

/-- C1 amended: on a request whose chunking succeeds, whose indexing
succeeds and whose retrievals all succeed, a failing completion call
degrades to the fixed string "Error processing the question." in that
question's slot only, every other question's answer being returned
unaffected; a failure during a question's retrieval instead fails the whole
request (see the counterexample). -/
theorem completion_failure_localized (auth_token : Option String)
    (process_pdf : String → List String) (embed_store : List String → Except Unit Unit)
    (query_db : String → Except Unit String) (complete : String → String → Except Unit String)
    (documents : String) (questions : List String)
    (hchunks : (process_pdf documents).isEmpty = false)
    (hembed : embed_store (process_pdf documents) = Except.ok ())
    (hretrieve : ∀ q ∈ questions, ∃ ctx : String, query_db q = Except.ok ctx) :
    ∃ answers : List String, ∃ tr : List Event,
      run_submission auth_token (some (expected_token auth_token)) process_pdf embed_store
          query_db complete documents questions
        = (RunResult.ok answers, tr)
      ∧ answers.length = questions.length
      ∧ ∀ (i : Nat) (q : String), questions[i]? = some q →
          ∀ ctx : String, query_db q = Except.ok ctx →
          (complete ctx q = Except.error () →
            answers[i]? = some "Error processing the question.")
          ∧ ∀ a : String, complete ctx q = Except.ok a → answers[i]? = some a := by
  obtain ⟨tasks, htasks⟩ := buildTasks_all_ok query_db questions hretrieve
  obtain ⟨hlen, hidx⟩ := buildTasks_ok query_db questions tasks
    (questions.map Event.queryDb) htasks
  refine ⟨tasks.map (fun t => get_answer_from_llm complete t.1 t.2),
    [Event.setupIndex, Event.fetchDoc documents, Event.embedStore]
      ++ questions.map Event.queryDb ++ tasks.map (fun t => Event.completion t.2),
    ?_, by simp [hlen], ?_⟩
  · rw [run_submission, if_pos rfl, run_authenticated, hchunks]
    simp only [Bool.false_eq_true, if_false, hembed, htasks]
  · intro i q hq ctx hctx
    obtain ⟨ctx2, hctx2, htask⟩ := hidx i q hq
    rw [hctx] at hctx2
    cases hctx2
    constructor
    · intro hfail
      rw [List.getElem?_map, htask]
      simp [get_answer_from_llm, hfail]
    · intro a hok
      rw [List.getElem?_map, htask]
      simp [get_answer_from_llm, hok]

/-- Witness for the amended C1: two questions, the second one's completion
call fails; the returned list keeps the first answer and puts the fixed
error string in the second slot. -/
theorem completion_failure_localized_witness :
    ∃ answers : List String, ∃ tr : List Event,
      run_submission (some "t") (some (expected_token (some "t"))) oneChunk okEmbed okQuery
          failQ2Complete "url" ["Q1", "Q2"]
        = (RunResult.ok answers, tr)
      ∧ answers.length = (["Q1", "Q2"] : List String).length
      ∧ ∀ (i : Nat) (q : String), (["Q1", "Q2"] : List String)[i]? = some q →
          ∀ ctx : String, okQuery q = Except.ok ctx →
          (failQ2Complete ctx q = Except.error () →
            answers[i]? = some "Error processing the question.")
          ∧ ∀ a : String, failQ2Complete ctx q = Except.ok a → answers[i]? = some a :=
  completion_failure_localized (some "t") oneChunk okEmbed okQuery failQ2Complete "url"
    ["Q1", "Q2"] (by decide) rfl (fun q _ => ⟨"ctx", rfl⟩)

/-- C8: for a non-empty chunk list of length n (with the provider returning
one embedding per chunk), `embed_and_store` makes a single batched
embedding call whose input is the chunk list in order, builds exactly n
records with sequential ids `vec-0` … `vec-(n-1)` carrying each chunk's
text as metadata, upserts them into the one fixed namespace
`"doc-namespace"`, and deletes no previously stored record. -/
theorem embed_and_store_batch (embed : List String → List (List Int))
    (chunks : List String) (store : Store)
    (hne : chunks ≠ []) (hlen : (embed chunks).length = chunks.length) :
    (embed_and_store embed chunks store).2 = [chunks]
    ∧ (vectors_to_upsert embed chunks).length = chunks.length
    ∧ (∀ i : Nat, i < chunks.length →
        (vectors_to_upsert embed chunks)[i]?
          = some { id := "vec-" ++ toString i,
                   values := (embed chunks).getD i [],
                   metadata := chunks.getD i "" })
    ∧ (∀ ns rid : String, ∀ r : UpsertRecord, store ns rid = some r →
        ((embed_and_store embed chunks store).1 ns rid).isSome = true)
    ∧ (∀ ns : String, ns ≠ "doc-namespace" → ∀ rid : String,
        (embed_and_store embed chunks store).1 ns rid = store ns rid) := by
  have hzlen : (chunks.zip (embed chunks)).length = chunks.length := by
    rw [List.length_zip, hlen]
    omega
  refine ⟨rfl, ?_, ?_, ?_, ?_⟩
  · rw [vectors_to_upsert, List.length_map, List.enum_length, hzlen]
  · intro i hi
    have hiz : i < (chunks.zip (embed chunks)).length := by omega
    have hie : i < (embed chunks).length := by omega
    rw [vectors_to_upsert, List.getElem?_map, List.getElem?_enum,
      List.getElem?_eq_getElem hiz]
    simp only [Option.map_some']
    rw [List.getElem_zip]
    rw [List.getD_eq_getElem (embed chunks) [] hie, List.getD_eq_getElem chunks "" hi]
  · intro ns rid r hr
    show (upsert store "doc-namespace" (vectors_to_upsert embed chunks) ns rid).isSome = true
    simp only [upsert]
    by_cases hns : ns = "doc-namespace"
    · rw [if_pos hns]
      cases hfind : (vectors_to_upsert embed chunks).reverse.find? (fun v => v.id = rid) with
      | some v => simp
      | none => simp [hr]
    · rw [if_neg hns, hr]
      rfl
  · intro ns hns rid
    show upsert store "doc-namespace" (vectors_to_upsert embed chunks) ns rid = store ns rid
    simp only [upsert]
    rw [if_neg hns]

/-- Witness for C8 at the two-chunk list ["a", "b"] over the empty store. -/
theorem embed_and_store_batch_witness :
    (embed_and_store constEmbed ["a", "b"] emptyStore).2 = [["a", "b"]]
    ∧ (vectors_to_upsert constEmbed ["a", "b"]).length = (["a", "b"] : List String).length
    ∧ (∀ i : Nat, i < (["a", "b"] : List String).length →
        (vectors_to_upsert constEmbed ["a", "b"])[i]?
          = some { id := "vec-" ++ toString i,
                   values := (constEmbed ["a", "b"]).getD i [],
                   metadata := (["a", "b"] : List String).getD i "" })
    ∧ (∀ ns rid : String, ∀ r : UpsertRecord, emptyStore ns rid = some r →
        ((embed_and_store constEmbed ["a", "b"] emptyStore).1 ns rid).isSome = true)
    ∧ (∀ ns : String, ns ≠ "doc-namespace" → ∀ rid : String,
        (embed_and_store constEmbed ["a", "b"] emptyStore).1 ns rid = emptyStore ns rid) :=
  embed_and_store_batch constEmbed ["a", "b"] emptyStore (by decide) rfl
